import Mathlib

/-!
Verification development for the peptide structure-clustering program
(`perResidueCluster.py`).  The Python source is shallowly embedded below:

* machine floats are replaced by exact rationals (`ℚ`); the one genuinely
  numerical step (the SVD inside the Kabsch alignment) is not exactly
  representable, so the pairwise RMSD used by the clustering loop is
  abstracted as a total distance oracle `DistOracle`, and the alignment function
  itself is embedded at the level of its shape/error semantics together with
  the exactly computable covariance matrix;
* CPython iterates a `set` of strings in a hash-dependent order which is not
  fixed by the input data (string hashing is randomized per process); every
  place the source iterates over the working set is therefore parameterized
  by an enumeration function `enum` ranging over permutations of the set's
  contents;
* fallible code returns `Except`, with error strings naming the Python
  exception that the corresponding line raises.
-/

/-! ## Basic geometric data -/

/-- Structure names are Python strings. -/
abbrev SName := String

/-- A 3D point with exact rational coordinates (embeds one row of an `Nx3`
numpy array of coordinates). -/
structure Vec3 where
  x : ℚ
  y : ℚ
  z : ℚ
deriving DecidableEq

def Vec3.add (a b : Vec3) : Vec3 := ⟨a.x + b.x, a.y + b.y, a.z + b.z⟩

def Vec3.sub (a b : Vec3) : Vec3 := ⟨a.x - b.x, a.y - b.y, a.z - b.z⟩

def Vec3.smul (q : ℚ) (a : Vec3) : Vec3 := ⟨q * a.x, q * a.y, q * a.z⟩

def Vec3.zero : Vec3 := ⟨0, 0, 0⟩

/-- A 3x3 rational matrix, stored by rows. -/
structure Mat3 where
  r1 : Vec3
  r2 : Vec3
  r3 : Vec3
deriving DecidableEq

def Mat3.add (A B : Mat3) : Mat3 := ⟨A.r1.add B.r1, A.r2.add B.r2, A.r3.add B.r3⟩

def Mat3.zero : Mat3 := ⟨Vec3.zero, Vec3.zero, Vec3.zero⟩

/-- Outer product `p qᵀ` of two 3D vectors. -/
def outer (p q : Vec3) : Mat3 :=
  ⟨⟨p.x * q.x, p.x * q.y, p.x * q.z⟩,
   ⟨p.y * q.x, p.y * q.y, p.y * q.z⟩,
   ⟨p.z * q.x, p.z * q.y, p.z * q.z⟩⟩

/-! ## `kabsch_algorithm` (perResidueCluster.py lines 14-56)

The function receives two `Nx3` arrays `P` (moving) and `Q` (target).  Lines
28-33 compute the centroids (`np.mean(_, axis=0)`, which for an empty array
produces a row of NaNs with only a `RuntimeWarning`) and the centered point
sets.  Line 36 computes the cross-covariance `H = P_centered.T @ Q_centered`;
this matrix product is the single place where numpy raises an exception
(`ValueError`) when the two arrays hold different numbers of points.  Lines
39-50 (SVD, reflection fix, rotation and translation) operate on the 3x3
matrix `H` and raise nothing for inputs of equal length; their floating-point
output is not exactly representable, so the embedding keeps `H` (exactly
computable over `ℚ`) and records, for the translation and for the RMSD of
line 54 (`sqrt(sum/len(P))`, whose division by `len(P) = 0` yields NaN, not
an exception), whether the value returned by the Python code is NaN. -/

def vecSum (P : List Vec3) : Vec3 := P.foldl Vec3.add Vec3.zero

/-- `np.mean(P, axis=0)`: `none` encodes the all-NaN row produced (with a
`RuntimeWarning`, not an exception) when `P` is empty. -/
def npMean (P : List Vec3) : Option Vec3 :=
  if P.length = 0 then none else some (Vec3.smul (1 / (P.length : ℚ)) (vecSum P))

/-- `P - centroid_P` (lines 32-33).  When `P` is empty the result is again the
empty array, so the NaN centroid never reaches any retained number. -/
def centered (P : List Vec3) : List Vec3 :=
  match npMean P with
  | none => []
  | some c => P.map (fun p => Vec3.sub p c)

/-- `P_centered.T @ Q_centered` (line 36) for arrays of equal length:
`H[a][b] = Σ_i P[i][a] * Q[i][b]`, the sum of outer products of corresponding
rows. -/
def covariance (P Q : List Vec3) : Mat3 :=
  (List.zipWith outer P Q).foldl Mat3.add Mat3.zero

/-- What `kabsch_algorithm` returns when it returns at all: the exact
covariance matrix of line 36 plus NaN-ness of the translation vector of
line 50 and of the RMSD of line 54 (both NaN exactly when `N = 0`, because
the centroids of empty arrays are NaN and the RMSD divides by `len(P)`).
The rotation, the numerical translation and the numerical RMSD go through an
SVD and are abstracted. -/
structure KabschShape where
  H : Mat3
  tIsNaN : Bool
  rmsdIsNaN : Bool
deriving DecidableEq

/-- Embedding of `kabsch_algorithm(P, Q)` (lines 14-56).  The only exception
the body can raise is the `ValueError` of the matrix product at line 36 when
`P` and `Q` contain different numbers of points; every other line returns
normally (NaNs propagate as values). -/
def kabsch_algorithm (P Q : List Vec3) : Except String KabschShape :=
  if P.length = Q.length then
    .ok { H := covariance (centered P) (centered Q),
          tIsNaN := P.isEmpty,
          rmsdIsNaN := P.isEmpty }
  else
    .error "ValueError: matmul: input operand shapes are mismatched"

/-- `true` exactly when the embedded computation raised. -/
def isErr {ε α : Type} (e : Except ε α) : Bool :=
  match e with
  | .error _ => true
  | .ok _ => false

/-! ## `extract_backbone_coords` (lines 59-87)

`gemmi` parsing happens at lines 70-71 and is external; the embedding starts
from the parsed model: a list of chains, each a list of residues, each a list
of named atoms.  Lines 76-82 walk every residue and append the position of
each backbone atom *that is present* (`if atom:` silently skips a missing
atom, without any warning or error); line 85 then computes
`n_residues = len(coords) // 4` with integer division. -/

abbrev Atom := String × Vec3

abbrev Residue := List Atom

abbrev Chain := List Residue

abbrev PModel := List Chain

def atom_names : List String := ["N", "CA", "C", "O"]

/-- `residue.find_atom(name, '\x00')`: first atom of the residue with the
given name, if any. -/
def find_atom (residue : Residue) (nm : String) : Option Vec3 :=
  (residue.find? (fun a => a.1 == nm)).map Prod.snd

/-- Embedding of `extract_backbone_coords` from the parsed model onward:
returns the backbone coordinates and `n_residues = len(coords) // 4`. -/
def extract_backbone_coords (model : PModel) : List Vec3 × Nat :=
  let coords := model.flatMap (fun chain => chain.flatMap (fun residue =>
    atom_names.filterMap (fun nm => find_atom residue nm)))
  (coords, coords.length / 4)

/-- The length-group key under which `main` (line 206-209) files a structure:
the `n_residues` returned by `extract_backbone_coords`. -/
def groupKey (coords : List Vec3) : Nat := coords.length / 4

/-- `str.split(sep)` for a single separator character, over the character
list: consecutive separators produce empty pieces, exactly as in Python. -/
def splitBy (p : Char → Bool) : List Char → List (List Char)
  | [] => [[]]
  | c :: rest =>
    match splitBy p rest with
    | [] => [[]]
    | g :: gs => if p c then [] :: g :: gs else (c :: g) :: gs

/-- `'_'.join(structure_name.split('_')[2:])` (line 197): drop the
`alpha_X.XX` prefix to obtain the score-table key. -/
def strip_alpha (s : String) : String :=
  String.mk (List.intercalate ['_'] ((splitBy (fun c => c == '_') s.data).drop 2))

/-- Embedding of the per-file loop of `main` (lines 193-213).  Each input
file carries its parsed model, or `none` when `gemmi` raised while reading
it (the only step of the `try` block that can raise); in that case the
`except` branch prints a warning and skips the file.  A file whose stripped
name has no score entry is skipped silently (line 200-201).  Every other
file is filed under the length-group key of its extracted coordinates --
including files with missing backbone atoms or no atoms at all, for which
extraction returns normally. -/
def processStructures (scores : List (SName × ℚ)) (files : List (SName × Option PModel)) :
    List (Nat × SName × List Vec3) :=
  files.filterMap (fun f =>
    if (List.lookup (strip_alpha f.1) scores).isSome then
      match f.2 with
      | none => none
      | some m =>
        let c := extract_backbone_coords m
        some (c.2, f.1, c.1)
    else none)

/-! ## `parse_score_file` (lines 90-112)

The first line is skipped as a header.  Every later line is
whitespace-split; a line with at least three fields inserts
`scores[parts[1]] = float(parts[2])` (and `float` raises `ValueError` on an
unparseable field -- the conversion is abstracted as the oracle `pyfloat`,
`none` meaning it raises); any shorter line is passed over without effect.
The returned list records the insertions in order (the Python dict keeps the
last value for a repeated key). -/

/-- `line.strip().split()`: split on whitespace runs, dropping empty pieces. -/
def pySplit (s : String) : List String :=
  ((splitBy Char.isWhitespace s.data).map String.mk).filter (fun t => t != "")

def parseLines (pyfloat : String → Option ℚ) : List String → Except String (List (SName × ℚ))
  | [] => .ok []
  | line :: rest =>
    match pySplit line with
    | _ :: nm :: scoreStr :: _ =>
      match pyfloat scoreStr with
      | none => .error ("ValueError: could not convert string to float: " ++ scoreStr)
      | some v => Except.map (fun m => (nm, v) :: m) (parseLines pyfloat rest)
    | _ => parseLines pyfloat rest

/-- Embedding of `parse_score_file` over the file's list of lines. -/
def parse_score_file (pyfloat : String → Option ℚ) (lines : List String) :
    Except String (List (SName × ℚ)) :=
  parseLines pyfloat (lines.drop 1)

/-! ## `cluster_structures` (lines 115-166)

The distance oracle `d` stands for
`fun s c => kabsch_algorithm(coords_dict[s], coords_dict[c]).rmsd`
(`P` = candidate, `Q` = current center), the per-call float RMSD replaced by
an exact rational.  `structure_order` is the score-sorted processing order.
The working set `unclustered = set(structure_order)` is represented by a
duplicate-free list; its *contents* evolve deterministically, but the order
in which line 147 (`for struct in list(unclustered)`) enumerates it is a
CPython implementation detail (hash-ordered, randomized per process), so the
embedding takes an enumeration function `enum` which may reorder the working
set at every loop iteration; faithful instantiations are exactly those with
`(enum l).Perm l`. -/

abbrev DistOracle := SName → SName → ℚ

/-- The membership test of lines 148-156: skip the center itself, otherwise
admit a candidate exactly when its RMSD to the center is strictly below the
cutoff. -/
def memberProbe (d : DistOracle) (cutoff : ℚ) (center : SName) (s : SName) : Bool :=
  !(s == center) && decide (d s center < cutoff)

/-- Lines 144-157: the member list of one cluster is the center followed by
every admitted candidate, in enumeration order. -/
def collectMembers (d : DistOracle) (cutoff : ℚ) (center : SName) (uEnum : List SName) : List SName :=
  center :: uEnum.filter (memberProbe d cutoff center)

/-- The `while unclustered:` loop of lines 132-164.  Each iteration: pick as
center the first name of `structure_order` still unclustered (lines
134-138; if none is found the loop breaks at line 140-141), collect the
members, remove them from the working set (lines 159-161), and record the
cluster (line 163; the output list preserves Python dict insertion order).
The fuel argument bounds the iteration count; every iteration removes the
center from the working set, so a fuel equal to the initial set size is
enough to drain it. -/
def clusterLoop (d : DistOracle) (cutoff : ℚ) (order : List SName) (enum : List SName → List SName) :
    Nat → List SName → List (SName × List SName)
  | 0, _ => []
  | fuel + 1, u =>
    match order.find? (fun s => u.contains s) with
    | none => []
    | some center =>
      let members := collectMembers d cutoff center (enum u)
      let rest := u.filter (fun s => !(members.contains s))
      (center, members) :: clusterLoop d cutoff order enum fuel rest

/-- Embedding of `cluster_structures(coords_dict, structure_order,
rmsd_cutoff)` (default cutoff 1.5): the working set starts as
`set(structure_order)` (represented with first occurrences kept), and the
map from representative to member list is returned in creation order. -/
def cluster_structures (d : DistOracle) (order : List SName) (cutoff : ℚ)
    (enum : List SName → List SName) : List (SName × List SName) :=
  clusterLoop d cutoff order enum order.length order.dedup

/-! ## The representatives report (`main`, lines 269-282)

For every cluster, `main` keeps its representative name, residue count,
member count and representative score (lines 245-253, collection order).
The report file gets two literal comment lines, then one row per
representative in Python's stable ascending sort by representative score,
each row tab-separated with the score rendered via `:.3f` (float rendering
is abstracted as `fmt`). -/

structure RepInfo where
  name : SName
  nres : Nat
  nmem : Nat
  score : ℚ
deriving DecidableEq

/-- Comparison by representative score, the sort key of line 276. -/
def scoreRel (a b : RepInfo) : Prop := a.score ≤ b.score

instance : DecidableRel scoreRel := fun a b => inferInstanceAs (Decidable (a.score ≤ b.score))

instance : IsTotal RepInfo scoreRel := ⟨fun a b => le_total a.score b.score⟩

instance : IsTrans RepInfo scoreRel := ⟨fun _ _ _ h1 h2 => le_trans h1 h2⟩

/-- `sorted(all_representatives, key=...)` -- Python's sort is stable and
ascending; a stable ascending sort is unique, and insertion sort realizes
it. -/
def sortedByScore (reps : List RepInfo) : List RepInfo := reps.insertionSort scoreRel

def headerLine1 : String := "# Cluster representatives (sorted by score)"

def headerLine2 : String := "# Representative\tN_residues\tN_members\tScore"

def reportRow (fmt : ℚ → String) (r : RepInfo) : String :=
  r.name ++ "\t" ++ toString r.nres ++ "\t" ++ toString r.nmem ++ "\t" ++ fmt r.score

/-- The lines written to `cluster_representatives.txt` (lines 270-280). -/
def representativesReport (fmt : ℚ → String) (reps : List RepInfo) : List String :=
  headerLine1 :: headerLine2 :: (sortedByScore reps).map (reportRow fmt)

/-- `line.startswith('#')`: the line's first character is the comment mark. -/
def startsHash (l : String) : Bool :=
  match l.data with
  | [] => false
  | c :: _ => c == '#'

/-- Number of comment lines in a report. -/
def headerLineCount (ls : List String) : Nat := ls.countP startsHash

/-! ## Concrete instances used by witnesses and counterexamples -/

/-- Scenario distances of the spec's three-structure example:
`rmsd(A,B) = 0.3`, `rmsd(A,C) = 2.0`, `rmsd(B,C) = 1.5` (the assumed
"≥ 1.5"), symmetric, zero on the diagonal. -/
def dC7 : DistOracle := fun a b =>
  if a = b then 0
  else if (a, b) ∈ [("A", "B"), ("B", "A")] then mkRat 3 10
  else if (a, b) ∈ [("A", "C"), ("C", "A")] then 2
  else mkRat 3 2

/-- The spec scenario's processing order: score ascending
(C = 0.5, A = 1.0, B = 2.0). -/
def ordC7 : List SName := ["C", "A", "B"]

/-- The scenario's score table. -/
def scoreC7 : SName → ℚ := fun n => if n = "C" then mkRat 1 2 else if n = "A" then 1 else 2

/-- A symmetric distance oracle on four structures satisfying all triangle
inequalities (d(a,b) = 1.2, d(b,c) = d(b,d) = 0.9, d(c,d) = 1.8,
d(a,c) = d(a,d) = 1.6; the four points embed isometrically in `ℝ³`). -/
def dC2 : DistOracle := fun a b =>
  if a = b then 0
  else if (a, b) ∈ [("a", "b"), ("b", "a")] then mkRat 6 5
  else if (a, b) ∈ [("b", "c"), ("c", "b"), ("b", "d"), ("d", "b")] then mkRat 9 10
  else if (a, b) ∈ [("c", "d"), ("d", "c")] then mkRat 9 5
  else mkRat 8 5

def ordC2 : List SName := ["a", "b", "c", "d"]

/-- Three structures all within distance 1/2 of each other. -/
def dC8 : DistOracle := fun a b => if a = b then 0 else mkRat 1 2

def ordC8 : List SName := ["x", "y", "z"]

def v0 : Vec3 := ⟨0, 0, 0⟩

/-- A residue with all four backbone atoms. -/
def resFull : Residue := [("N", v0), ("CA", v0), ("C", v0), ("O", v0)]

/-- A residue whose backbone oxygen is absent from the file. -/
def resNoO : Residue := [("N", v0), ("CA", v0), ("C", v0)]

/-- One chain of three complete residues: 12 backbone atoms. -/
def modelA : PModel := [[resFull, resFull, resFull]]

/-- One chain of four residues with one atom missing: 15 backbone atoms. -/
def modelB : PModel := [[resFull, resFull, resFull, resNoO]]

def scoresC5 : List (SName × ℚ) := [("pep_cyclic_001_chainA.cif", 1)]

def fileC5 : SName := "alpha_0.01_pep_cyclic_001_chainA.cif"

def v1 : Vec3 := ⟨1, 0, 0⟩

/-- A second complete residue at different coordinates. -/
def resFullB : Residue := [("N", v1), ("CA", v1), ("C", v1), ("O", v1)]

def fmt0 : ℚ → String := fun _ => "0.500"

def repEx : RepInfo := ⟨"alpha_0.01_pep_cyclic_001_chainA.cif", 3, 2, mkRat 1 2⟩








/-! ## Structural lemmas about the clustering loop -/

theorem clusterLoop_succ (d : DistOracle) (cutoff : ℚ) (order : List SName)
    (enum : List SName → List SName) (f : Nat) (u : List SName) :
    clusterLoop d cutoff order enum (f + 1) u =
      match order.find? (fun s => u.contains s) with
      | none => []
      | some center =>
        (center, collectMembers d cutoff center (enum u)) ::
          clusterLoop d cutoff order enum f
            (u.filter (fun s => !((collectMembers d cutoff center (enum u)).contains s))) := rfl

theorem clusterLoop_succ_none (d : DistOracle) (cutoff : ℚ) (order : List SName)
    (enum : List SName → List SName) (f : Nat) (u : List SName)
    (h : List.find? (fun s => u.contains s) order = none) :
    clusterLoop d cutoff order enum (f + 1) u = [] := by
  rw [clusterLoop_succ, h]

theorem clusterLoop_succ_some (d : DistOracle) (cutoff : ℚ) (order : List SName)
    (enum : List SName → List SName) (f : Nat) (u : List SName) (center : SName)
    (h : List.find? (fun s => u.contains s) order = some center) :
    clusterLoop d cutoff order enum (f + 1) u =
      (center, collectMembers d cutoff center (enum u)) ::
        clusterLoop d cutoff order enum f
          (u.filter (fun s => !((collectMembers d cutoff center (enum u)).contains s))) := by
  rw [clusterLoop_succ, h]

theorem mem_collectMembers {d : DistOracle} {cutoff : ℚ} {center : SName}
    {uEnum : List SName} {s : SName} :
    s ∈ collectMembers d cutoff center uEnum ↔
      s = center ∨ (s ∈ uEnum ∧ s ≠ center ∧ d s center < cutoff) := by
  simp [collectMembers, memberProbe, List.mem_filter, and_assoc]

theorem collectMembers_nodup (d : DistOracle) (cutoff : ℚ) (center : SName)
    {uEnum : List SName} (h : uEnum.Nodup) :
    (collectMembers d cutoff center uEnum).Nodup := by
  refine List.Nodup.cons (fun hc => ?_) (h.filter _)
  have hpr := (List.mem_filter.1 hc).2
  simp [memberProbe] at hpr

theorem collectMembers_mono (d : DistOracle) {t2 t1 : ℚ} (h : t2 ≤ t1) (center : SName)
    (uEnum : List SName) :
    (collectMembers d t2 center uEnum).Sublist (collectMembers d t1 center uEnum) := by
  refine List.Sublist.cons₂ center (List.monotone_filter_right uEnum fun s hs => ?_)
  simp only [memberProbe, Bool.and_eq_true, decide_eq_true_iff] at hs ⊢
  exact ⟨hs.1, lt_of_lt_of_le hs.2 h⟩

theorem mem_rest {members u : List SName} {x : SName} :
    x ∈ u.filter (fun s => !(members.contains s)) ↔ x ∈ u ∧ x ∉ members := by
  simp [List.mem_filter]

theorem length_rest_lt {u members : List SName} {c : SName} (hcu : c ∈ u) (hcm : c ∈ members) :
    (u.filter (fun s => !(members.contains s))).length < u.length := by
  refine List.length_filter_lt_length_iff_exists.2 ⟨c, hcu, ?_⟩
  simp [hcm]

theorem contains_eq_of_perm {l1 l2 : List SName} (h : l1.Perm l2) (x : SName) :
    l1.contains x = l2.contains x := by
  by_cases hx : x ∈ l1
  · simp [hx, h.mem_iff.1 hx]
  · have hx2 : x ∉ l2 := fun h2 => hx (h.mem_iff.2 h2)
    simp [hx, hx2]

/-- The name selected at lines 134-138 (the first name of the score-sorted
processing order that is still unclustered) has minimal score among all
names of the working set, provided the processing order is sorted by
score. -/
theorem find?_min_of_sorted (score : SName → ℚ) :
    ∀ order : List SName, List.Pairwise (fun a b => score a ≤ score b) order →
      ∀ (u : List SName) (c : SName), List.find? (fun s => u.contains s) order = some c →
        ∀ m ∈ u, m ∈ order → score c ≤ score m := by
  intro order
  induction order with
  | nil => intro _ u c hc; simp at hc
  | cons a t iht =>
    intro hp u c hc m hmu hmo
    obtain ⟨ha, ht⟩ := List.pairwise_cons.1 hp
    by_cases hau : u.contains a = true
    · rw [List.find?_cons_of_pos t hau] at hc
      obtain rfl : a = c := by simpa using hc
      rcases List.mem_cons.1 hmo with rfl | hmt
      · exact le_refl _
      · exact ha m hmt
    · have hma : m ≠ a := by
        rintro rfl
        exact hau (by simpa using hmu)
      rw [List.find?_cons_of_neg t hau] at hc
      have hmt : m ∈ t := by
        rcases List.mem_cons.1 hmo with rfl | hmt
        · exact absurd rfl hma
        · exact hmt
      exact iht ht u c hc m hmu hmt

/-- Master invariant of the greedy loop: starting from a duplicate-free
working set whose names all occur in the processing order and with enough
fuel, the member lists of the produced clusters are, taken together, a
permutation of the working set; the number of clusters is bounded by the
working-set size; and each cluster contains its seed, has no duplicate
members, draws all members from the working set, and (when the processing
order is score-sorted) gives its seed minimal score among its members. -/
theorem clusterLoop_spec (d : DistOracle) (cutoff : ℚ) (order : List SName)
    (enum : List SName → List SName) (henum : ∀ l, (enum l).Perm l)
    (score : SName → ℚ) (hsorted : List.Pairwise (fun a b => score a ≤ score b) order) :
    ∀ (fuel : Nat) (u : List SName), u.Nodup → u.length ≤ fuel → (∀ x ∈ u, x ∈ order) →
      ((clusterLoop d cutoff order enum fuel u).flatMap Prod.snd).Perm u ∧
      (clusterLoop d cutoff order enum fuel u).length ≤ u.length ∧
      ∀ p ∈ clusterLoop d cutoff order enum fuel u,
        p.1 ∈ p.2 ∧ p.2.Nodup ∧ ∀ m ∈ p.2, m ∈ u ∧ score p.1 ≤ score m := by
  intro fuel
  induction fuel with
  | zero =>
    intro u _ hlen _
    have hu : u = [] := List.eq_nil_of_length_eq_zero (Nat.le_zero.1 hlen)
    subst hu
    exact ⟨by simp [clusterLoop], by simp [clusterLoop], by simp [clusterLoop]⟩
  | succ f ih =>
    intro u hnd hlen hsub
    cases hfind : List.find? (fun s => u.contains s) order with
    | none =>
      have hu : u = [] := by
        cases u with
        | nil => rfl
        | cons a t =>
          exfalso
          have ha : a ∈ order := hsub a (List.mem_cons_self a t)
          have := List.find?_eq_none.1 hfind a ha
          simp at this
      subst hu
      rw [clusterLoop_succ_none d cutoff order enum f [] hfind]
      exact ⟨by simp, by simp, by simp⟩
    | some center =>
      have hcu : center ∈ u := by
        have := List.find?_some hfind
        simpa using this
      have henu : (enum u).Nodup := (henum u).symm.nodup hnd
      have hmnd : (collectMembers d cutoff center (enum u)).Nodup :=
        collectMembers_nodup d cutoff center henu
      have hcm : center ∈ collectMembers d cutoff center (enum u) :=
        List.mem_cons_self _ _
      have hmsub : ∀ m ∈ collectMembers d cutoff center (enum u), m ∈ u := by
        intro m hm
        rcases mem_collectMembers.1 hm with h | ⟨h1, _, _⟩
        · exact h ▸ hcu
        · exact (henum u).mem_iff.1 h1
      have hrnd : (u.filter
          (fun s => !((collectMembers d cutoff center (enum u)).contains s))).Nodup :=
        hnd.filter _
      have hrsubU : ∀ x ∈ u.filter
          (fun s => !((collectMembers d cutoff center (enum u)).contains s)), x ∈ u :=
        fun x hx => (List.mem_filter.1 hx).1
      have hrlt : (u.filter
          (fun s => !((collectMembers d cutoff center (enum u)).contains s))).length <
            u.length := length_rest_lt hcu hcm
      obtain ⟨ihperm, ihlen, ihmem⟩ :=
        ih (u.filter (fun s => !((collectMembers d cutoff center (enum u)).contains s)))
          hrnd (by omega) (fun x hx => hsub x (hrsubU x hx))
      have hdisj : (collectMembers d cutoff center (enum u)).Disjoint
          (u.filter (fun s => !((collectMembers d cutoff center (enum u)).contains s))) :=
        fun x hxm hxr => (mem_rest.1 hxr).2 hxm
      have happnd : ((collectMembers d cutoff center (enum u)) ++
          u.filter (fun s => !((collectMembers d cutoff center (enum u)).contains s))).Nodup :=
        List.Nodup.append hmnd hrnd hdisj
      have hperm_mu : ((collectMembers d cutoff center (enum u)) ++
          u.filter (fun s => !((collectMembers d cutoff center (enum u)).contains s))).Perm u := by
        refine (List.perm_ext_iff_of_nodup happnd hnd).2 fun x => ?_
        constructor
        · intro hx
          rcases List.mem_append.1 hx with hx | hx
          · exact hmsub x hx
          · exact hrsubU x hx
        · intro hx
          by_cases hxm : x ∈ collectMembers d cutoff center (enum u)
          · exact List.mem_append.2 (Or.inl hxm)
          · exact List.mem_append.2 (Or.inr (mem_rest.2 ⟨hx, hxm⟩))
      rw [clusterLoop_succ_some d cutoff order enum f u center hfind]
      refine ⟨?_, ?_, ?_⟩
      · simpa [List.flatMap_cons] using
          (List.Perm.append_left (collectMembers d cutoff center (enum u)) ihperm).trans hperm_mu
      · have h1 : (clusterLoop d cutoff order enum f
            (u.filter (fun s =>
              !((collectMembers d cutoff center (enum u)).contains s)))).length <
            u.length := lt_of_le_of_lt ihlen hrlt
        simpa using h1
      · intro p hp
        rcases List.mem_cons.1 hp with rfl | hp
        · refine ⟨hcm, hmnd, fun m hm => ⟨hmsub m hm, ?_⟩⟩
          exact find?_min_of_sorted score order hsorted u center hfind m
            (hmsub m hm) (hsub m (hmsub m hm))
        · obtain ⟨h1, h2, h3⟩ := ihmem p hp
          exact ⟨h1, h2, fun m hm => ⟨hrsubU m (h3 m hm).1, (h3 m hm).2⟩⟩

/-- The clustering loop is insensitive to how the working set is
enumerated: any two runs whose working sets hold the same names produce
the same representatives in the same order, and member lists that agree as
sets (they are permutations of one another). -/
theorem clusterLoop_congr (d : DistOracle) (cutoff : ℚ) (order : List SName)
    (e1 e2 : List SName → List SName) (h1 : ∀ l, (e1 l).Perm l) (h2 : ∀ l, (e2 l).Perm l) :
    ∀ (fuel : Nat) (u1 u2 : List SName), u1.Perm u2 →
      List.Forall₂ (fun p q => p.1 = q.1 ∧ p.2.Perm q.2)
        (clusterLoop d cutoff order e1 fuel u1) (clusterLoop d cutoff order e2 fuel u2) := by
  intro fuel
  induction fuel with
  | zero => intro u1 u2 _; exact List.Forall₂.nil
  | succ f ih =>
    intro u1 u2 hu
    have hpred : (fun s => u1.contains s) = (fun s => u2.contains s) := by
      funext s
      exact contains_eq_of_perm hu s
    cases hfind : List.find? (fun s => u1.contains s) order with
    | none =>
      have hfind2 : List.find? (fun s => u2.contains s) order = none := by
        rw [← hpred]; exact hfind
      rw [clusterLoop_succ_none d cutoff order e1 f u1 hfind,
        clusterLoop_succ_none d cutoff order e2 f u2 hfind2]
      exact List.Forall₂.nil
    | some center =>
      have hfind2 : List.find? (fun s => u2.contains s) order = some center := by
        rw [← hpred]; exact hfind
      have hm12 : (collectMembers d cutoff center (e1 u1)).Perm
          (collectMembers d cutoff center (e2 u2)) :=
        List.Perm.cons center
          (List.Perm.filter _ (((h1 u1).trans hu).trans (h2 u2).symm))
      have hrperm : (u1.filter
          (fun s => !((collectMembers d cutoff center (e1 u1)).contains s))).Perm
          (u2.filter (fun s => !((collectMembers d cutoff center (e2 u2)).contains s))) := by
        have step1 := List.Perm.filter
          (fun s => !((collectMembers d cutoff center (e1 u1)).contains s)) hu
        have step2 : u2.filter
            (fun s => !((collectMembers d cutoff center (e1 u1)).contains s)) =
            u2.filter (fun s => !((collectMembers d cutoff center (e2 u2)).contains s)) := by
          refine List.filter_congr fun x _ => ?_
          rw [contains_eq_of_perm hm12 x]
        exact step2 ▸ step1
      rw [clusterLoop_succ_some d cutoff order e1 f u1 center hfind,
        clusterLoop_succ_some d cutoff order e2 f u2 center hfind2]
      exact List.Forall₂.cons ⟨rfl, hm12⟩ (ih _ _ hrperm)

/-! ## Lemmas about the score-file parser -/

theorem parseLines_cons (pyfloat : String → Option ℚ) (line : String) (rest : List String) :
    parseLines pyfloat (line :: rest) =
      match pySplit line with
      | _ :: nm :: scoreStr :: _ =>
        match pyfloat scoreStr with
        | none => .error ("ValueError: could not convert string to float: " ++ scoreStr)
        | some v => Except.map (fun m => (nm, v) :: m) (parseLines pyfloat rest)
      | _ => parseLines pyfloat rest := rfl

/-- Data lines with fewer than three whitespace-delimited fields are
invisible to the parser: deleting them changes neither the resulting
entries nor whether (and with which message) the parse raises. -/
theorem parseLines_filter (pyfloat : String → Option ℚ) :
    ∀ ls : List String,
      parseLines pyfloat ls =
        parseLines pyfloat (ls.filter (fun l => decide (3 ≤ (pySplit l).length))) := by
  intro ls
  induction ls with
  | nil => rfl
  | cons l t iht =>
    by_cases h3 : 3 ≤ (pySplit l).length
    · rw [List.filter_cons_of_pos (by simpa using h3)]
      rcases hsp : pySplit l with _ | ⟨a, _ | ⟨b, _ | ⟨c, r⟩⟩⟩
      · rw [hsp] at h3; simp at h3
      · rw [hsp] at h3; simp at h3
      · rw [hsp] at h3; simp at h3
      · rw [parseLines_cons, parseLines_cons, hsp]
        cases hv : pyfloat c with
        | none => simp only [hv]
        | some v => simp only [hv, iht]
    · rw [List.filter_cons_of_neg (by simpa using h3)]
      rcases hsp : pySplit l with _ | ⟨a, _ | ⟨b, _ | ⟨c, r⟩⟩⟩
      · rw [parseLines_cons, hsp]; exact iht
      · rw [parseLines_cons, hsp]; exact iht
      · rw [parseLines_cons, hsp]; exact iht
      · exfalso; rw [hsp] at h3; simp at h3

/-! ## Claim theorems -/

/-- C1: for every length group (a name-to-coordinates mapping abstracted by
the distance oracle) with a complete score ranking `order`, and any possible
enumeration order of the working set, `cluster_structures` partitions the
input names: the member lists taken together are exactly the distinct input
names (no duplicates, no omissions), the cluster count is at most the group
size, and every cluster contains its seed. -/
theorem cluster_structures_partition (d : DistOracle) (order : List SName) (cutoff : ℚ)
    (enum : List SName → List SName) (henum : ∀ l, (enum l).Perm l) :
    ((cluster_structures d order cutoff enum).flatMap Prod.snd).Perm order.dedup ∧
    (cluster_structures d order cutoff enum).length ≤ order.length ∧
    ∀ p ∈ cluster_structures d order cutoff enum, p.1 ∈ p.2 := by
  unfold cluster_structures
  have htriv : List.Pairwise
      (fun a b => (fun _ : SName => (0 : ℚ)) a ≤ (fun _ : SName => (0 : ℚ)) b) order := by
    induction order with
    | nil => exact List.Pairwise.nil
    | cons a t iht => exact List.Pairwise.cons (fun _ _ => le_refl 0) iht
  obtain ⟨h1, h2, h3⟩ := clusterLoop_spec d cutoff order enum henum (fun _ => 0) htriv
    order.length order.dedup (List.nodup_dedup order)
    ((List.dedup_sublist order).length_le) (fun x hx => List.mem_dedup.1 hx)
  exact ⟨h1, le_trans h2 ((List.dedup_sublist order).length_le), fun p hp => (h3 p hp).1⟩

/-- Witness for C1 at the concrete scenario inputs. -/
theorem cluster_structures_partition_witness :
    ((cluster_structures dC7 ordC7 (mkRat 3 2) id).flatMap Prod.snd).Perm ordC7.dedup ∧
    (cluster_structures dC7 ordC7 (mkRat 3 2) id).length ≤ ordC7.length :=
  ⟨(cluster_structures_partition dC7 ordC7 (mkRat 3 2) id (fun l => List.Perm.refl l)).1,
   (cluster_structures_partition dC7 ordC7 (mkRat 3 2) id (fun l => List.Perm.refl l)).2.1⟩

/-- C2 counterexample: decreasing the cutoff (from 1.5 to 1.0) on a fixed
input both decreases the total number of clusters (3 to 2) and increases a
later cluster's member count (the second cluster grows from 1 member to 3),
refuting both halves of the threshold-monotonicity claim. -/
theorem cluster_cutoff_monotonicity_counterexample :
    (cluster_structures dC2 ordC2 1 id).length <
      (cluster_structures dC2 ordC2 (mkRat 3 2) id).length ∧
    (cluster_structures dC2 ordC2 1 id).map (fun p => p.2.length) = [1, 3] ∧
    (cluster_structures dC2 ordC2 (mkRat 3 2) id).map (fun p => p.2.length) = [2, 1, 1] := by
  decide

/-- The counterexample oracle is an honest distance: zero on the diagonal,
symmetric, nonnegative, and satisfying every triangle inequality on the four
names involved. -/
theorem dC2_metric_axioms :
    (∀ x ∈ ordC2, dC2 x x = 0) ∧
    (∀ x ∈ ordC2, ∀ y ∈ ordC2, dC2 x y = dC2 y x) ∧
    (∀ x ∈ ordC2, ∀ y ∈ ordC2, 0 ≤ dC2 x y) ∧
    (∀ x ∈ ordC2, ∀ y ∈ ordC2, ∀ z ∈ ordC2, dC2 x z ≤ dC2 x y + dC2 y z) := by
  simp only [ordC2, List.forall_mem_cons, List.forall_mem_nil, and_true]
  norm_num +decide [dC2, Rat.mkRat_eq_div]

/-- C2 amended: what does hold is monotonicity of the first cluster.  For a
fixed input and any cutoffs `t2 ≤ t1`, the first cluster produced has the
same representative under both cutoffs, and its member list under `t2` is a
sublist of (hence no longer than) its member list under `t1`.  Later
clusters may grow and the total cluster count may drop, as the
counterexample shows. -/
theorem first_cluster_cutoff_monotone (d : DistOracle) (order : List SName)
    (enum : List SName → List SName) (t1 t2 : ℚ) (hcut : t2 ≤ t1)
    (p1 p2 : SName × List SName)
    (h1 : (cluster_structures d order t1 enum).head? = some p1)
    (h2 : (cluster_structures d order t2 enum).head? = some p2) :
    p2.1 = p1.1 ∧ p2.2.Sublist p1.2 ∧ p2.2.length ≤ p1.2.length := by
  unfold cluster_structures at h1 h2
  cases order with
  | nil => simp [clusterLoop] at h1
  | cons a t =>
    simp only [List.length_cons] at h1 h2
    cases hfind : List.find? (fun s => ((a :: t).dedup).contains s) (a :: t) with
    | none =>
      rw [clusterLoop_succ_none d t1 (a :: t) enum t.length ((a :: t).dedup) hfind] at h1
      simp at h1
    | some c =>
      rw [clusterLoop_succ_some d t1 (a :: t) enum t.length ((a :: t).dedup) c hfind] at h1
      rw [clusterLoop_succ_some d t2 (a :: t) enum t.length ((a :: t).dedup) c hfind] at h2
      obtain rfl : (c, collectMembers d t1 c (enum ((a :: t).dedup))) = p1 := by
        simpa using h1
      obtain rfl : (c, collectMembers d t2 c (enum ((a :: t).dedup))) = p2 := by
        simpa using h2
      exact ⟨rfl, collectMembers_mono d hcut c _, (collectMembers_mono d hcut c _).length_le⟩

/-- Witness for the amended C2 at the counterexample input: the first
cluster keeps seed "a" and shrinks from two members to one. -/
theorem first_cluster_cutoff_monotone_witness :
    ("a" : SName) = "a" ∧ List.Sublist (["a"] : List SName) ["a", "b"] ∧
      (["a"] : List SName).length ≤ (["a", "b"] : List SName).length :=
  first_cluster_cutoff_monotone dC2 ordC2 id (mkRat 3 2) 1 (by decide)
    ("a", ["a", "b"]) ("a", ["a"]) (by decide) (by decide)

/-- C3 counterexample: on two empty coordinate sets (`N = 0`, the empty
`Nx3` array) the embedded `kabsch_algorithm` does not reject the input: it
returns normally, with a zero covariance matrix and NaN translation and
RMSD -- a degenerate result instead of an error. -/
theorem kabsch_empty_input_counterexample :
    kabsch_algorithm [] [] = Except.ok ⟨Mat3.zero, true, true⟩ ∧
    isErr (kabsch_algorithm ([] : List Vec3) []) = false :=
  ⟨rfl, rfl⟩

/-- C3 amended: a call on coordinate sets of unequal point counts does raise
a fatal error (numpy's `ValueError` at the covariance matrix product of
line 36), and is never silently handled by truncation or padding; but the
`N = 0` case is not rejected (see the counterexample). -/
theorem kabsch_length_mismatch_raises (P Q : List Vec3) (h : P.length ≠ Q.length) :
    kabsch_algorithm P Q =
      Except.error "ValueError: matmul: input operand shapes are mismatched" := by
  unfold kabsch_algorithm
  rw [if_neg h]

/-- Witness for the amended C3: one point against zero points raises. -/
theorem kabsch_length_mismatch_raises_witness :
    kabsch_algorithm [v0] [] =
      Except.error "ValueError: matmul: input operand shapes are mismatched" :=
  kabsch_length_mismatch_raises [v0] [] (by decide)

/-- C4 counterexample: a structure of three complete residues (12 backbone
atoms) and a structure of four residues with one missing oxygen (15
backbone atoms) receive the same length-group key `15 / 4 = 3 = 12 / 4`,
yet their coordinate arrays have unequal point counts -- so two structures
in the same group need not be alignable. -/
theorem same_group_unequal_points_counterexample :
    (extract_backbone_coords modelA).2 = (extract_backbone_coords modelB).2 ∧
    (extract_backbone_coords modelA).1.length ≠ (extract_backbone_coords modelB).1.length := by
  decide

/-- C4 amended: whenever both extracted coordinate arrays consist of
complete residues (point counts divisible by four), equal length-group keys
do imply equal point counts, so the invariant holds on complete-backbone
inputs. -/
theorem same_group_equal_points_of_complete (m1 m2 : PModel)
    (h1 : 4 ∣ (extract_backbone_coords m1).1.length)
    (h2 : 4 ∣ (extract_backbone_coords m2).1.length)
    (hk : (extract_backbone_coords m1).2 = (extract_backbone_coords m2).2) :
    (extract_backbone_coords m1).1.length = (extract_backbone_coords m2).1.length := by
  obtain ⟨a, ha⟩ := h1
  obtain ⟨b, hb⟩ := h2
  have e1 : (extract_backbone_coords m1).2 = (extract_backbone_coords m1).1.length / 4 := rfl
  have e2 : (extract_backbone_coords m2).2 = (extract_backbone_coords m2).1.length / 4 := rfl
  rw [e1, e2, ha, hb] at hk
  rw [Nat.mul_div_cancel_left a (by norm_num),
    Nat.mul_div_cancel_left b (by norm_num)] at hk
  rw [ha, hb, hk]

/-- Witness for the amended C4 on two complete single-residue structures. -/
theorem same_group_equal_points_of_complete_witness :
    (extract_backbone_coords [[resFull]]).1.length =
      (extract_backbone_coords [[resFullB]]).1.length :=
  same_group_equal_points_of_complete [[resFull]] [[resFullB]]
    (by decide) (by decide) (by decide)

/-- C5: a structure with a residue missing its backbone oxygen (an
incomplete coordinate set) is not skipped and triggers no warning: the
per-file loop files it, with three coordinates and a computed residue count
of zero, straight into the clustering input. -/
theorem incomplete_residue_not_skipped :
    processStructures scoresC5 [(fileC5, some [[resNoO]])] =
      [(0, fileC5, [v0, v0, v0])] ∧
    extract_backbone_coords [[resNoO]] = ([v0, v0, v0], 0) := by
  decide

/-- C6: with the processing order sorted ascending by score and any
enumeration of the working set, every produced cluster contains its
representative in its own member list, and the representative's score is
minimal among the scores of all its members. -/
theorem cluster_representative_min_score (d : DistOracle) (order : List SName) (cutoff : ℚ)
    (enum : List SName → List SName) (henum : ∀ l, (enum l).Perm l)
    (score : SName → ℚ) (hsorted : List.Pairwise (fun a b => score a ≤ score b) order) :
    ∀ p ∈ cluster_structures d order cutoff enum,
      p.1 ∈ p.2 ∧ ∀ m ∈ p.2, score p.1 ≤ score m := by
  unfold cluster_structures
  intro p hp
  obtain ⟨_, _, h3⟩ := clusterLoop_spec d cutoff order enum henum score hsorted
    order.length order.dedup (List.nodup_dedup order)
    ((List.dedup_sublist order).length_le) (fun x hx => List.mem_dedup.1 hx)
  exact ⟨(h3 p hp).1, fun m hm => ((h3 p hp).2.2 m hm).2⟩

/-- Witness for C6: in the scenario run, the second cluster is seeded by
"A", which belongs to its own member list and scores no more than member
"B". -/
theorem cluster_representative_min_score_witness :
    ("A" : SName) ∈ (["A", "B"] : List SName) ∧ scoreC7 "A" ≤ scoreC7 "B" :=
  ⟨(cluster_representative_min_score dC7 ordC7 (mkRat 3 2) id (fun l => List.Perm.refl l)
      scoreC7 (by decide) ("A", ["A", "B"]) (by decide)).1,
   (cluster_representative_min_score dC7 ordC7 (mkRat 3 2) id (fun l => List.Perm.refl l)
      scoreC7 (by decide) ("A", ["A", "B"]) (by decide)).2 "B" (by decide)⟩

/-- C7: on the spec's three-structure scenario (scores C = 0.5, A = 1.0,
B = 2.0, so processing order [C, A, B]; rmsd(A,B) = 0.3, rmsd(A,C) = 2.0,
rmsd(B,C) = 1.5; cutoff 1.5) the clustering yields exactly two clusters,
{C} with representative C and then {A, B} with representative A, whatever
order the working set is enumerated in.  B sits exactly at the cutoff from
C and is not absorbed (the comparison is strict), while B is absorbed by A
since 0.3 < 1.5. -/
theorem three_structure_scenario (enum : List SName → List SName)
    (henum : ∀ l, (enum l).Perm l) :
    List.Forall₂ (fun p q => p.1 = q.1 ∧ p.2.Perm q.2)
      (cluster_structures dC7 ordC7 (mkRat 3 2) enum)
      [("C", ["C"]), ("A", ["A", "B"])] ∧
    ¬ dC7 "B" "C" < mkRat 3 2 ∧ dC7 "B" "A" < mkRat 3 2 := by
  refine ⟨?_, by decide, by decide⟩
  have h := clusterLoop_congr dC7 (mkRat 3 2) ordC7 enum id henum (fun l => List.Perm.refl l)
    ordC7.length ordC7.dedup ordC7.dedup (List.Perm.refl _)
  have hid : clusterLoop dC7 (mkRat 3 2) ordC7 id ordC7.length ordC7.dedup =
      [("C", ["C"]), ("A", ["A", "B"])] := by decide
  rw [hid] at h
  exact h

/-- Witness for C7 with the identity enumeration. -/
theorem three_structure_scenario_witness :
    List.Forall₂ (fun p q => p.1 = q.1 ∧ p.2.Perm q.2)
      (cluster_structures dC7 ordC7 (mkRat 3 2) id)
      [("C", ["C"]), ("A", ["A", "B"])] ∧
    ¬ dC7 "B" "C" < mkRat 3 2 ∧ dC7 "B" "A" < mkRat 3 2 :=
  three_structure_scenario id (fun l => List.Perm.refl l)

/-- C8 counterexample: two runs on identical input data (identical distance
oracle, score order with no ties, cutoff) that enumerate the working set in
different orders -- as CPython's hash-randomized string sets do across
runs -- produce member lists that are not bit-identical: the cluster seeded
at "x" lists its absorbed members as ["x", "y", "z"] in one run and
["x", "z", "y"] in the other. -/
theorem determinism_counterexample :
    cluster_structures dC8 ordC8 1 id ≠ cluster_structures dC8 ordC8 1 List.reverse := by
  decide

/-- C8 amended: what is independent of the working-set enumeration is
everything except the internal order of each member list: any two runs on
the same input produce the same clusters in the same order, with equal
representatives and member lists that are permutations of each other. -/
theorem cluster_structures_enum_stable (d : DistOracle) (order : List SName) (cutoff : ℚ)
    (e1 e2 : List SName → List SName) (h1 : ∀ l, (e1 l).Perm l) (h2 : ∀ l, (e2 l).Perm l) :
    List.Forall₂ (fun p q => p.1 = q.1 ∧ p.2.Perm q.2)
      (cluster_structures d order cutoff e1) (cluster_structures d order cutoff e2) :=
  clusterLoop_congr d cutoff order e1 e2 h1 h2 order.length order.dedup order.dedup
    (List.Perm.refl _)

/-- Witness for the amended C8 on the counterexample runs. -/
theorem cluster_structures_enum_stable_witness :
    List.Forall₂ (fun p q => p.1 = q.1 ∧ p.2.Perm q.2)
      (cluster_structures dC8 ordC8 1 id) (cluster_structures dC8 ordC8 1 List.reverse) :=
  cluster_structures_enum_stable dC8 ordC8 1 id List.reverse
    (fun l => List.Perm.refl l) (fun l => List.reverse_perm l)

/-- C9 counterexample: the representatives file is preceded by two comment
lines, not exactly one header line: on a one-cluster input the report
contains two lines starting with the comment mark. -/
theorem report_header_count_counterexample :
    ¬ headerLineCount (representativesReport fmt0 [repEx]) = 1 := by
  decide

/-- C9 amended: the ranked summary consists of exactly two header lines
followed by one tab-separated row per representative, the rows appearing in
ascending order of representative score (Python's stable sort). -/
theorem report_structure (fmt : ℚ → String) (reps : List RepInfo) :
    representativesReport fmt reps =
      headerLine1 :: headerLine2 :: (sortedByScore reps).map (reportRow fmt) ∧
    (sortedByScore reps).Perm reps ∧
    List.Pairwise (fun a b => a.score ≤ b.score) (sortedByScore reps) ∧
    (representativesReport fmt reps).length = 2 + reps.length := by
  refine ⟨rfl, List.perm_insertionSort scoreRel reps, ?_, ?_⟩
  · exact List.sorted_insertionSort scoreRel reps
  · have hlen := (List.perm_insertionSort scoreRel reps).length_eq
    simp only [representativesReport, List.length_cons, List.length_map, sortedByScore, hlen]
    omega

/-- C10: `parse_score_file` ignores malformed data lines without raising:
after the header, a line with fewer than three whitespace-delimited fields
contributes no entry and no exception -- deleting all such lines leaves the
parse result (entries, or the error raised by an unparseable score field on
a well-formed line) unchanged. -/
theorem parse_score_file_skips_short_lines (pyfloat : String → Option ℚ)
    (lines : List String) :
    parse_score_file pyfloat lines =
      parse_score_file pyfloat
        (lines.take 1 ++ (lines.drop 1).filter (fun l => decide (3 ≤ (pySplit l).length))) := by
  cases lines with
  | nil => rfl
  | cons h t => exact parseLines_filter pyfloat t
